import Mathlib

/-!
# Verification development for `src/coreclrhost.cpp`

A shallow embedding of the CoreCLR host in `src/coreclrhost.cpp`:

* `AddFilesFromDirectoryToTpaList` (lines 24-109), the directory scan that builds the
  trusted-platform-assemblies list;
* `run` (lines 111-240), the bootstrap sequence, as a function from the outcomes of the
  external calls to the sequence of external calls performed, the diagnostics written and
  the returned status.

C strings are lists of characters.  The file system and the dynamically loaded runtime
are parameters of the model: a directory is the sequence of entries `readdir` yields, the
same in each of the four passes, and every external call returns what the parameter says
for its arguments.  File names are short (`d_name` holds at most 255 bytes), so the `int`
arithmetic of line 84 does not overflow and is done in the integers.
-/

namespace CoreClrHost

/-- C strings (`const char *`, `std::string`) as character lists. -/
abbrev Str := List Char

/-! ## Directory enumeration -/

/-- The `d_type` field of a `struct dirent`. -/
inductive DType where
  | DT_UNKNOWN
  | DT_FIFO
  | DT_CHR
  | DT_DIR
  | DT_BLK
  | DT_REG
  | DT_LNK
  | DT_SOCK
  | DT_WHT
  deriving DecidableEq

/-- The fields of `struct dirent` the host reads. -/
structure Dirent where
  d_type : DType
  d_name : Str
  deriving DecidableEq

/-- The file system as the host observes it.  `opendir path` is `none` when `opendir`
returns a null pointer, and otherwise the sequence of entries `readdir` yields in one
pass (the same after every `rewinddir`).  `stat path` is `none` when `stat` returns `-1`
and otherwise tells whether `S_ISREG(sb.st_mode)` holds. -/
structure FileSystem where
  opendir : Str → Option (List Dirent)
  stat : Str → Option Bool

/-- The array `tpaExtensions` (lines 26-32), in probing order. -/
def tpaExtensions : List Str :=
  [".ni.dll".toList, ".dll".toList, ".ni.exe".toList, ".exe".toList]

/-- The file filter of lines 54-79: the `switch` on `entry->d_type`.  `true` when control
reaches line 81, `false` when the entry is skipped by a `continue`. -/
def isRegularFile (fs : FileSystem) (directory : Str) (entry : Dirent) : Bool :=
  match entry.d_type with
  | DType.DT_REG => true
  | DType.DT_LNK | DType.DT_UNKNOWN =>
    let fullFilename := directory ++ "/".toList ++ entry.d_name
    match fs.stat fullFilename with
    | none => false
    | some isReg => isReg
  | _ => false

/-- Local state of the scan: the set `addedAssemblies` and the output string `tpaList`. -/
structure TpaState where
  addedAssemblies : List Str
  tpaList : Str
  deriving DecidableEq

/-- The value `extPos` of line 84, `filename.length() - extLength`. -/
def extPos (filename ext : Str) : Int :=
  (filename.length : Int) - (ext.length : Int)

/-- The test of line 85, negated: `extPos > 0` and the `extLength` characters of
`filename` from `extPos` on equal `ext`. -/
def extensionMatches (filename ext : Str) : Bool :=
  !(decide (extPos filename ext ≤ 0)
    || ((filename.drop (extPos filename ext).toNat).take ext.length != ext))

/-- The value `filenameWithoutExt` of line 89, `filename.substr(0, extPos)`. -/
def filenameWithoutExt (filename ext : Str) : Str :=
  filename.take (extPos filename ext).toNat

/-- One iteration of the `while` loop of lines 52-101, for the extension `ext`. -/
def visitEntry (fs : FileSystem) (directory ext : Str) (st : TpaState) (entry : Dirent) :
    TpaState :=
  if isRegularFile fs directory entry then
    let filename := entry.d_name
    if extensionMatches filename ext then
      if filenameWithoutExt filename ext ∈ st.addedAssemblies then st
      else
        { addedAssemblies := filenameWithoutExt filename ext :: st.addedAssemblies
          tpaList := st.tpaList ++ directory ++ "/".toList ++ filename ++ ":".toList }
    else st
  else st

/-- One pass over the directory (the `while` loop of lines 52-101). -/
def scanPass (fs : FileSystem) (directory : Str) (entries : List Dirent) (st : TpaState)
    (ext : Str) : TpaState :=
  entries.foldl (visitEntry fs directory ext) st

/-- The `for` loop of lines 43-106: one pass per extension, in the order of
`tpaExtensions`. -/
def scanAll (fs : FileSystem) (directory : Str) (entries : List Dirent) (st : TpaState) :
    TpaState :=
  tpaExtensions.foldl (scanPass fs directory entries) st

/-- The function `AddFilesFromDirectoryToTpaList` (lines 24-109): the value of `tpaList`
when the function returns. -/
def AddFilesFromDirectoryToTpaList (fs : FileSystem) (directory : Str) (tpaList : Str) :
    Str :=
  match fs.opendir directory with
  | none => tpaList
  | some entries => (scanAll fs directory entries ⟨[], tpaList⟩).tpaList

/-! ## The bootstrap sequence -/

/-- The dynamic loader and the hosted runtime as `run` observes them: the outcome of every
external call, as a function of its arguments.  `libcoreclr` is the platform constant of
lines 14-18.  A null pointer is `none`. -/
structure Runtime where
  libcoreclr : Str
  dlopen : Str → Option Nat
  dlerror : Str
  dlsym : Nat → Str → Option Nat
  /-- The function `coreclr_initialize`: return code, host handle and domain id. -/
  coreclr_initialize : Str → Str → Nat → List Str → List Str → Int × Nat × Nat
  /-- The function `coreclr_create_delegate`: return code and delegate pointer. -/
  coreclr_create_delegate : Nat → Nat → Str → Str → Str → Int × Nat
  /-- The pointer returned by the delegate to `ManLib::Bootstrap()`. -/
  bootstrap : Nat → Nat

/-- The external calls `run` performs and its uses of the string returned by the
`Bootstrap` delegate, in program order.  Writes to `cout` other than that of `msg` are not
recorded. -/
inductive Call where
  | dlopen (path : Str) (result : Option Nat)
  | dlsym (handle : Nat) (symbol : Str) (result : Option Nat)
  | coreclr_initialize (exePath appDomainFriendlyName : Str) (propertyCount : Nat)
      (propertyKeys propertyValues : List Str) (ret : Int)
  | coreclr_create_delegate (hostHandle domainId : Nat)
      (assemblyName typeName methodName : Str) (ret : Int)
  | call_bootstrap (delegate : Nat) (msg : Nat)
  | print_msg (msg : Nat)
  | free (ptr : Nat)
  | call_plus (delegate : Nat) (x y : Int)
  | call_sum (delegate : Nat) (nums : List Int) (n : Int)
  deriving DecidableEq

/-- The failure tests of `run`: a null result of `dlopen` or `dlsym`, a negative return
code of `coreclr_initialize` or `coreclr_create_delegate`. -/
def Call.failed : Call → Bool
  | Call.dlopen _ result => result.isNone
  | Call.dlsym _ _ result => result.isNone
  | Call.coreclr_initialize _ _ _ _ _ ret => decide (ret < 0)
  | Call.coreclr_create_delegate _ _ _ _ _ ret => decide (ret < 0)
  | _ => false

/-- An item streamed to `cerr`. -/
inductive Diag where
  | text (s : Str)
  | int (n : Int)
  | endl
  deriving DecidableEq

/-- What a call of `run` does: the calls performed, the items written to `cerr`, and the
returned value; `status = none` when control reaches the closing brace of line 240, where
no `return` statement is executed. -/
structure RunResult where
  calls : List Call
  cerr : List Diag
  status : Option Int
  deriving DecidableEq

/-- The array `property_keys` of line 148. -/
def property_keys : List Str := ["APP_PATHS".toList, "TRUSTED_PLATFORM_ASSEMBLIES".toList]

/-- The diagnostic of lines 125-126. -/
def diagOpen (coreclr_path dlerror : Str) : List Diag :=
  [Diag.text "failed to open ".toList, Diag.text coreclr_path, Diag.endl,
   Diag.text "error: ".toList, Diag.text dlerror, Diag.endl]

/-- The diagnostic of lines 139 and 179. -/
def diagSymbol (symbol coreclr_path : Str) : List Diag :=
  [Diag.text ("couldn".toList ++ [Char.ofNat 39] ++ "t find ".toList ++ symbol
      ++ " in ".toList), Diag.text coreclr_path, Diag.endl]

/-- The diagnostic of line 167. -/
def diagInit (ret : Int) : List Diag :=
  [Diag.text "failed to initialize coreclr. cerr = ".toList, Diag.int ret, Diag.endl]

/-- The diagnostic of lines 190, 208 and 225. -/
def diagDelegate (ret : Int) : List Diag :=
  [Diag.text ("couldn".toList ++ [Char.ofNat 39] ++ "t create delegate. err = ".toList),
   Diag.int ret, Diag.endl]

/-- The third block of `run` (lines 219-239): bind and call `ManLib::Sum`. -/
def runSum (rt : Runtime) (coreclr_handle domain_id : Nat) (calls : List Call) :
    RunResult :=
  let created :=
    rt.coreclr_create_delegate coreclr_handle domain_id "manlib".toList "ManLib".toList
      "Sum".toList
  let ret := created.1
  let dele_sum := created.2
  let calls := calls ++ [Call.coreclr_create_delegate coreclr_handle domain_id
    "manlib".toList "ManLib".toList "Sum".toList ret]
  if ret < 0 then ⟨calls, diagDelegate ret, some (-1)⟩
  else
    let nums : List Int := (List.range 10).map (fun i => (i : Int))
    ⟨calls ++ [Call.call_sum dele_sum nums 10], [], none⟩

/-- The second block of `run` (lines 202-217): bind and call `ManLib::Plus`. -/
def runPlus (rt : Runtime) (coreclr_handle domain_id : Nat) (calls : List Call) :
    RunResult :=
  let created :=
    rt.coreclr_create_delegate coreclr_handle domain_id "manlib".toList "ManLib".toList
      "Plus".toList
  let ret := created.1
  let dele_plus := created.2
  let calls := calls ++ [Call.coreclr_create_delegate coreclr_handle domain_id
    "manlib".toList "ManLib".toList "Plus".toList ret]
  if ret < 0 then ⟨calls, diagDelegate ret, some (-1)⟩
  else runSum rt coreclr_handle domain_id (calls ++ [Call.call_plus dele_plus 1 2])

/-- The first block of `run` (lines 183-200): bind and call `ManLib::Bootstrap`, print
and free the returned string. -/
def runBootstrap (rt : Runtime) (coreclr_handle domain_id : Nat) (calls : List Call) :
    RunResult :=
  let created :=
    rt.coreclr_create_delegate coreclr_handle domain_id "manlib".toList "ManLib".toList
      "Bootstrap".toList
  let ret := created.1
  let dele_bootstrap := created.2
  let calls := calls ++ [Call.coreclr_create_delegate coreclr_handle domain_id
    "manlib".toList "ManLib".toList "Bootstrap".toList ret]
  if ret < 0 then ⟨calls, diagDelegate ret, some (-1)⟩
  else
    let msg := rt.bootstrap dele_bootstrap
    runPlus rt coreclr_handle domain_id
      (calls ++ [Call.call_bootstrap dele_bootstrap msg, Call.print_msg msg, Call.free msg])

/-- The function `run` (lines 111-240). -/
def run (rt : Runtime) (fs : FileSystem) (app_path pkg_path : Str) : RunResult :=
  let coreclr_path := pkg_path ++ "/".toList ++ rt.libcoreclr
  match rt.dlopen coreclr_path with
  | none => ⟨[Call.dlopen coreclr_path none], diagOpen coreclr_path rt.dlerror, some (-1)⟩
  | some coreclr =>
    let calls := [Call.dlopen coreclr_path (some coreclr)]
    match rt.dlsym coreclr "coreclr_initialize".toList with
    | none =>
      ⟨calls ++ [Call.dlsym coreclr "coreclr_initialize".toList none],
        diagSymbol "coreclr_initialize".toList coreclr_path, some (-1)⟩
    | some coreclr_init =>
      let calls := calls ++ [Call.dlsym coreclr "coreclr_initialize".toList (some coreclr_init)]
      let tpa_list := AddFilesFromDirectoryToTpaList fs pkg_path []
      let property_values : List Str := [app_path, tpa_list]
      let initialized :=
        rt.coreclr_initialize app_path "host".toList property_values.length property_keys
          property_values
      let ret := initialized.1
      let coreclr_handle := initialized.2.1
      let domain_id := initialized.2.2
      let calls := calls ++ [Call.coreclr_initialize app_path "host".toList
        property_values.length property_keys property_values ret]
      if ret < 0 then ⟨calls, diagInit ret, some (-1)⟩
      else
        match rt.dlsym coreclr "coreclr_create_delegate".toList with
        | none =>
          ⟨calls ++ [Call.dlsym coreclr "coreclr_create_delegate".toList none],
            diagSymbol "coreclr_create_delegate".toList coreclr_path, some (-1)⟩
        | some coreclr_create_dele =>
          runBootstrap rt coreclr_handle domain_id
            (calls ++ [Call.dlsym coreclr "coreclr_create_delegate".toList
              (some coreclr_create_dele)])

/-! ## Vocabulary of the properties -/

/-- The text lines 96-99 append for one file: `directory`, `"/"`, the file name, `":"`. -/
def tpaEntry (directory filename : Str) : Str :=
  directory ++ "/".toList ++ filename ++ ":".toList

/-- The list string holding one entry per file name, in order. -/
def tpaEntries (directory : Str) : List Str → Str
  | [] => []
  | filename :: rest => tpaEntry directory filename ++ tpaEntries directory rest

/-- An entry that denotes a regular file: its type is `DT_REG`, or its type is `DT_LNK` or
`DT_UNKNOWN` and `stat` of `directory/name` succeeds and reports a regular file. -/
def IsRegular (fs : FileSystem) (directory : Str) (entry : Dirent) : Prop :=
  entry.d_type = DType.DT_REG ∨
    ((entry.d_type = DType.DT_LNK ∨ entry.d_type = DType.DT_UNKNOWN) ∧
      fs.stat (directory ++ "/".toList ++ entry.d_name) = some true)

/-- The calls that touch the string returned by the `Bootstrap` delegate: the call that
returns it, its print and its release. -/
def Call.usesMsg : Call → Bool
  | Call.call_bootstrap _ _ => true
  | Call.print_msg _ => true
  | Call.free _ => true
  | _ => false

/-- The calls of `coreclr_create_delegate` that ask for the method `Bootstrap`. -/
def Call.bindsBootstrap : Call → Bool
  | Call.coreclr_create_delegate _ _ _ _ methodName _ =>
    decide (methodName = "Bootstrap".toList)
  | _ => false

/-- The calls of the entry point `coreclr_initialize`. -/
def Call.isInitialize : Call → Bool
  | Call.coreclr_initialize _ _ _ _ _ _ => true
  | _ => false

/-- The shape of a fail-fast run: no call failed and control reached the end of `run`
without a `return`, or the last call performed is the only one that failed and `-1` was
returned. -/
def FailFast (r : RunResult) : Prop :=
  ((∀ c ∈ r.calls, c.failed = false) ∧ r.status = none) ∨
    ∃ good x, r.calls = good ++ [x] ∧ (∀ c ∈ good, c.failed = false) ∧ x.failed = true ∧
      r.status = some (-1)

/-! ## Concrete inputs -/

/-- A regular-file entry. -/
def reg (name : String) : Dirent := ⟨DType.DT_REG, name.toList⟩

/-- A file system in which every directory has the given entries and `stat` succeeds, with
a regular file, exactly on `/pkg/l.dll`. -/
def fsOf (entries : List Dirent) : FileSystem :=
  { opendir := fun _ => some entries
    stat := fun path => if path = "/pkg/l.dll".toList then some true else none }

/-- A file system without any directory that can be opened. -/
def fsNone : FileSystem :=
  { opendir := fun _ => none, stat := fun _ => none }

/-- A directory content with a sub-directory, a regular file, a symlink to a regular file
and an entry of unknown type whose `stat` fails. -/
def mixedEntries : List Dirent :=
  [⟨DType.DT_DIR, "x.dll".toList⟩, reg "a.dll", ⟨DType.DT_LNK, "l.dll".toList⟩,
   ⟨DType.DT_UNKNOWN, "u.exe".toList⟩]

/-- A runtime in which every call succeeds, except as the arguments say: `hasCreate`
tells whether `coreclr_create_delegate` is exported, `initRet` is the return code of
`coreclr_initialize`, and binding the method `failing` returns `-3`. -/
def rtOf (hasCreate : Bool) (initRet : Int) (failing : Str) : Runtime :=
  { libcoreclr := "libcoreclr.so".toList
    dlopen := fun _ => some 7
    dlerror := []
    dlsym := fun _ symbol =>
      if symbol = "coreclr_create_delegate".toList then (if hasCreate then some 12 else none)
      else some 11
    coreclr_initialize := fun _ _ _ _ _ => (initRet, 21, 1)
    coreclr_create_delegate := fun _ _ _ _ method =>
      if method = failing then (-3, 0) else (0, 30 + method.length)
    bootstrap := fun _ => 99 }

/-! ## Lists -/

theorem perm_three {α : Type} {a b c : α} {l : List α} (h : l.Perm [a, b, c]) :
    l = [a, b, c] ∨ l = [b, a, c] ∨ l = [c, b, a] ∨ l = [b, c, a] ∨ l = [c, a, b] ∨
      l = [a, c, b] := by
  have hm := List.mem_permutations.2 h
  have hl : [a, b, c].permutations = [[a, b, c], [b, a, c], [c, b, a], [b, c, a], [c, a, b],
      [a, c, b]] := by
    simp [List.permutations, List.permutationsAux_cons, List.permutationsAux2]
  rw [hl] at hm
  simpa using hm

theorem perm_two {α : Type} {a b : α} {l : List α} (h : l.Perm [a, b]) :
    l = [a, b] ∨ l = [b, a] := by
  have hm := List.mem_permutations.2 h
  have hl : [a, b].permutations = [[a, b], [b, a]] := by
    simp [List.permutations, List.permutationsAux_cons, List.permutationsAux2]
  rw [hl] at hm
  simpa using hm

/-! ## Lemmas about the directory scan -/

theorem tpaEntries_append (d : Str) (xs ys : List Str) :
    tpaEntries d (xs ++ ys) = tpaEntries d xs ++ tpaEntries d ys := by
  induction xs with
  | nil => rfl
  | cons x xs ih => simp [tpaEntries, ih]

theorem isRegularFile_iff (fs : FileSystem) (d : Str) (e : Dirent) :
    isRegularFile fs d e = true ↔ IsRegular fs d e := by
  unfold isRegularFile IsRegular
  cases hty : e.d_type <;> simp
  all_goals cases hst : fs.stat (d ++ "/".toList ++ e.d_name) <;> simp_all

/-- One loop iteration appends nothing, or the entry of the file just read, which is then a
regular file. -/
theorem visitEntry_tpaList (fs : FileSystem) (d ext : Str) (st : TpaState) (e : Dirent) :
    (visitEntry fs d ext st e).tpaList = st.tpaList ∨
      (IsRegular fs d e ∧
        (visitEntry fs d ext st e).tpaList = st.tpaList ++ tpaEntry d e.d_name) := by
  unfold visitEntry
  by_cases hreg : isRegularFile fs d e = true
  · by_cases hext : extensionMatches e.d_name ext = true
    · by_cases hmem : filenameWithoutExt e.d_name ext ∈ st.addedAssemblies
      · left; simp [hreg, hext, hmem]
      · right
        refine ⟨(isRegularFile_iff fs d e).1 hreg, ?_⟩
        simp [hreg, hext, hmem, tpaEntry, List.append_assoc]
    · left; simp [hreg, hext]
  · left; simp [hreg]

theorem scanPass_tpaList (fs : FileSystem) (d ext : Str) (entries : List Dirent) :
    ∀ (l : List Dirent) (st : TpaState), (∀ e ∈ l, e ∈ entries) →
      ∃ names, (scanPass fs d l st ext).tpaList = st.tpaList ++ tpaEntries d names ∧
        ∀ n ∈ names, ∃ e ∈ entries, e.d_name = n ∧ IsRegular fs d e := by
  intro l
  induction l with
  | nil => intro st _; exact ⟨[], by simp [scanPass, tpaEntries], by simp⟩
  | cons e l ih =>
    intro st hl
    have hl' : ∀ x ∈ l, x ∈ entries := fun x hx => hl x (List.mem_cons_of_mem _ hx)
    obtain ⟨names, hnames, hreg⟩ := ih (visitEntry fs d ext st e) hl'
    have hstep : scanPass fs d (e :: l) st ext = scanPass fs d l (visitEntry fs d ext st e) ext :=
      rfl
    rcases visitEntry_tpaList fs d ext st e with h | ⟨he, h⟩
    · exact ⟨names, by rw [hstep, hnames, h], hreg⟩
    · refine ⟨e.d_name :: names, ?_, ?_⟩
      · rw [hstep, hnames, h]; simp [tpaEntries, List.append_assoc]
      · intro n hn
        rcases List.mem_cons.1 hn with rfl | hn
        · exact ⟨e, hl e (List.mem_cons_self _ _), rfl, he⟩
        · exact hreg n hn

theorem scanExts_tpaList (fs : FileSystem) (d : Str) (entries : List Dirent) :
    ∀ (exts : List Str) (st : TpaState),
      ∃ names, (exts.foldl (scanPass fs d entries) st).tpaList
          = st.tpaList ++ tpaEntries d names ∧
        ∀ n ∈ names, ∃ e ∈ entries, e.d_name = n ∧ IsRegular fs d e := by
  intro exts
  induction exts with
  | nil => intro st; exact ⟨[], by simp [tpaEntries], by simp⟩
  | cons ext exts ih =>
    intro st
    obtain ⟨n1, h1, r1⟩ := scanPass_tpaList fs d ext entries entries st (fun _ h => h)
    obtain ⟨n2, h2, r2⟩ := ih (scanPass fs d entries st ext)
    refine ⟨n1 ++ n2, ?_, ?_⟩
    · rw [List.foldl_cons, h2, h1, tpaEntries_append, List.append_assoc]
    · intro n hn
      rcases List.mem_append.1 hn with hn | hn
      · exact r1 n hn
      · exact r2 n hn

theorem extPos_append (b x ext : Str) (h : x.length = ext.length) :
    extPos (b ++ x) ext = (b.length : Int) := by
  simp [extPos, h]

theorem extensionMatches_append (b x ext : Str) (h : x.length = ext.length) :
    extensionMatches (b ++ x) ext = (decide (b ≠ []) && decide (x = ext)) := by
  unfold extensionMatches
  rw [extPos_append b x ext h]
  have hx : List.take ext.length x = x := by rw [← h]; exact List.take_length x
  cases b with
  | nil => simp
  | cons c b =>
    have hpos : ¬ ((b.length : Int) + 1 ≤ 0) := by omega
    by_cases hxe : x = ext <;> simp [hpos, hx, hxe]

theorem filenameWithoutExt_append (b x ext : Str) (h : x.length = ext.length) :
    filenameWithoutExt (b ++ x) ext = b := by
  unfold filenameWithoutExt
  rw [extPos_append b x ext h]
  simp

/-- The scan of a directory holding one regular file `b.ni.dll`: the file matches `.ni.dll`
with base name `b` and `.dll` with base name `b.ni`, and is appended in both passes. -/
theorem scanAll_ni_dll (fs : FileSystem) (d b tpa : Str) (hb : b ≠ []) :
    (scanAll fs d [⟨DType.DT_REG, b ++ ".ni.dll".toList⟩] ⟨[], tpa⟩).tpaList =
      tpa ++ tpaEntries d [b ++ ".ni.dll".toList, b ++ ".ni.dll".toList] := by
  have hsplit : b ++ ".ni.dll".toList = (b ++ ".ni".toList) ++ ".dll".toList := by
    rw [List.append_assoc]; rfl
  have hne : b ++ ".ni".toList ≠ b := by
    intro h
    have := congrArg List.length h
    simp at this
  have m1 : extensionMatches (b ++ ".ni.dll".toList) ".ni.dll".toList = true := by
    rw [extensionMatches_append b ".ni.dll".toList ".ni.dll".toList rfl]; simp [hb]
  have m2 : extensionMatches (b ++ ".ni.dll".toList) ".dll".toList = true := by
    rw [hsplit, extensionMatches_append (b ++ ".ni".toList) ".dll".toList ".dll".toList rfl]
    simp [hb]
  have m3 : extensionMatches (b ++ ".ni.dll".toList) ".ni.exe".toList = false := by
    rw [extensionMatches_append b ".ni.dll".toList ".ni.exe".toList rfl]; simp +decide
  have m4 : extensionMatches (b ++ ".ni.dll".toList) ".exe".toList = false := by
    rw [hsplit, extensionMatches_append (b ++ ".ni".toList) ".dll".toList ".exe".toList rfl]
    simp +decide
  have f1 : filenameWithoutExt (b ++ ".ni.dll".toList) ".ni.dll".toList = b :=
    filenameWithoutExt_append b ".ni.dll".toList ".ni.dll".toList rfl
  have f2 : filenameWithoutExt (b ++ ".ni.dll".toList) ".dll".toList = b ++ ".ni".toList := by
    rw [hsplit]
    exact filenameWithoutExt_append (b ++ ".ni".toList) ".dll".toList ".dll".toList rfl
  simp only [scanAll, scanPass, tpaExtensions, List.foldl_cons, List.foldl_nil, visitEntry,
    isRegularFile, m1, m2, m3, m4, f1, f2, if_true, List.not_mem_nil, if_false,
    List.mem_singleton, hne, Bool.false_eq_true]
  simp [tpaEntries, tpaEntry, List.append_assoc]

/-! ## Claims about the directory scan -/

/-- C1 (the code at the claimed input): for every directory `d` whose enumeration yields
exactly the regular files `A.dll`, `A.ni.dll` and `B.exe`, in any order, the scan started
from the empty list returns `d/A.ni.dll:d/A.ni.dll:d/B.exe:`, with the entry of `A.ni.dll`
twice, and not the string `d/A.ni.dll:d/B.exe:`. -/
theorem tpa_three_files (fs : FileSystem) (d : Str) (entries : List Dirent)
    (hopen : fs.opendir d = some entries)
    (hperm : entries.Perm [reg "A.dll", reg "A.ni.dll", reg "B.exe"]) :
    AddFilesFromDirectoryToTpaList fs d [] =
        d ++ "/A.ni.dll:".toList ++ d ++ "/A.ni.dll:".toList ++ d ++ "/B.exe:".toList ∧
      AddFilesFromDirectoryToTpaList fs d [] ≠
        d ++ "/A.ni.dll:".toList ++ d ++ "/B.exe:".toList := by
  have hval : AddFilesFromDirectoryToTpaList fs d [] =
      d ++ "/A.ni.dll:".toList ++ d ++ "/A.ni.dll:".toList ++ d ++ "/B.exe:".toList := by
    rcases perm_three hperm with rfl | rfl | rfl | rfl | rfl | rfl <;>
      simp +decide [AddFilesFromDirectoryToTpaList, hopen, scanAll, scanPass, tpaExtensions,
        visitEntry, isRegularFile, reg, extensionMatches, filenameWithoutExt, extPos]
  refine ⟨hval, ?_⟩
  rw [hval]
  intro h
  have := congrArg List.length h
  simp at this

theorem tpa_three_files_witness :
    AddFilesFromDirectoryToTpaList (fsOf [reg "B.exe", reg "A.dll", reg "A.ni.dll"])
        "/pkg".toList [] = "/pkg/A.ni.dll:/pkg/A.ni.dll:/pkg/B.exe:".toList ∧
      AddFilesFromDirectoryToTpaList (fsOf [reg "B.exe", reg "A.dll", reg "A.ni.dll"])
        "/pkg".toList [] ≠ "/pkg/A.ni.dll:/pkg/B.exe:".toList :=
  tpa_three_files (fsOf [reg "B.exe", reg "A.dll", reg "A.ni.dll"]) "/pkg".toList
    [reg "B.exe", reg "A.dll", reg "A.ni.dll"] rfl
    (List.Perm.trans (List.Perm.swap _ _ _)
      (List.Perm.trans (List.Perm.cons _ (List.Perm.swap _ _ _)) (List.Perm.refl _)))

/-- C2 (the code at the claimed input): for every directory `d` whose enumeration yields
exactly the regular files `foo.ni.dll` and `foo.dll`, in either order, the scan started
from the empty list returns the entry `d/foo.ni.dll:` twice: the list holds two entries
for `foo`, not one. -/
theorem tpa_foo_both_variants (fs : FileSystem) (d : Str) (entries : List Dirent)
    (hopen : fs.opendir d = some entries)
    (hperm : entries.Perm [reg "foo.ni.dll", reg "foo.dll"]) :
    AddFilesFromDirectoryToTpaList fs d [] =
        tpaEntries d ["foo.ni.dll".toList, "foo.ni.dll".toList] ∧
      AddFilesFromDirectoryToTpaList fs d [] ≠ tpaEntries d ["foo.ni.dll".toList] := by
  have hval : AddFilesFromDirectoryToTpaList fs d [] =
      tpaEntries d ["foo.ni.dll".toList, "foo.ni.dll".toList] := by
    rcases perm_two hperm with rfl | rfl <;>
      simp +decide [AddFilesFromDirectoryToTpaList, hopen, scanAll, scanPass, tpaExtensions,
        visitEntry, isRegularFile, reg, extensionMatches, filenameWithoutExt, extPos,
        tpaEntries, tpaEntry]
  refine ⟨hval, ?_⟩
  rw [hval]
  intro h
  have := congrArg List.length h
  simp [tpaEntries, tpaEntry] at this

theorem tpa_foo_both_variants_witness :
    AddFilesFromDirectoryToTpaList (fsOf [reg "foo.dll", reg "foo.ni.dll"]) "/pkg".toList []
        = tpaEntries "/pkg".toList ["foo.ni.dll".toList, "foo.ni.dll".toList] ∧
      AddFilesFromDirectoryToTpaList (fsOf [reg "foo.dll", reg "foo.ni.dll"]) "/pkg".toList []
        ≠ tpaEntries "/pkg".toList ["foo.ni.dll".toList] :=
  tpa_foo_both_variants (fsOf [reg "foo.dll", reg "foo.ni.dll"]) "/pkg".toList
    [reg "foo.dll", reg "foo.ni.dll"] rfl (List.Perm.swap _ _ _)

/-- C3 (the code at a failing input): for every directory `d` whose enumeration yields
one regular file `b.ni.dll` with `b` not empty, the scan started from the empty list
returns two entries, both `d/b.ni.dll:`, so two entries of the list have the same file
name and the same base name. -/
theorem tpa_ni_dll_alone (fs : FileSystem) (d b : Str) (hb : b ≠ [])
    (hopen : fs.opendir d = some [⟨DType.DT_REG, b ++ ".ni.dll".toList⟩]) :
    AddFilesFromDirectoryToTpaList fs d [] =
      tpaEntries d [b ++ ".ni.dll".toList, b ++ ".ni.dll".toList] := by
  unfold AddFilesFromDirectoryToTpaList
  rw [hopen]
  simpa using scanAll_ni_dll fs d b [] hb

theorem tpa_ni_dll_alone_witness :
    AddFilesFromDirectoryToTpaList (fsOf [reg "A.ni.dll"]) "/pkg".toList [] =
      tpaEntries "/pkg".toList ["A.ni.dll".toList, "A.ni.dll".toList] :=
  tpa_ni_dll_alone (fsOf [reg "A.ni.dll"]) "/pkg".toList "A".toList (by decide) rfl

/-- C10: the text the scan appends to `tpaList` is a sequence of entries
`directory/name:`, each for the name of a directory entry that denotes a regular file
(type `DT_REG`, or type `DT_LNK` or `DT_UNKNOWN` with a successful `stat` reporting a
regular file); and a loop iteration on an entry that does not denote one leaves the list
and the set of added assemblies unchanged, whatever its name and the extension probed. -/
theorem tpa_regular_files_only (fs : FileSystem) (directory tpaList : Str)
    (entries : List Dirent) (hopen : fs.opendir directory = some entries) :
    (∃ names, AddFilesFromDirectoryToTpaList fs directory tpaList
          = tpaList ++ tpaEntries directory names ∧
        ∀ n ∈ names, ∃ e ∈ entries, e.d_name = n ∧ IsRegular fs directory e) ∧
      ∀ (e : Dirent) (ext : Str) (st : TpaState), ¬ IsRegular fs directory e →
        visitEntry fs directory ext st e = st := by
  constructor
  · unfold AddFilesFromDirectoryToTpaList
    rw [hopen]
    exact scanExts_tpaList fs directory entries tpaExtensions ⟨[], tpaList⟩
  · intro e ext st hreg
    have : isRegularFile fs directory e = false := by
      cases h : isRegularFile fs directory e
      · rfl
      · exact absurd ((isRegularFile_iff fs directory e).1 h) hreg
    simp [visitEntry, this]

theorem tpa_regular_files_only_witness :
    (∃ names, AddFilesFromDirectoryToTpaList (fsOf mixedEntries) "/pkg".toList []
          = [] ++ tpaEntries "/pkg".toList names ∧
        ∀ n ∈ names, ∃ e ∈ mixedEntries, e.d_name = n ∧
          IsRegular (fsOf mixedEntries) "/pkg".toList e) ∧
      ∀ (e : Dirent) (ext : Str) (st : TpaState),
        ¬ IsRegular (fsOf mixedEntries) "/pkg".toList e →
        visitEntry (fsOf mixedEntries) "/pkg".toList ext st e = st :=
  tpa_regular_files_only (fsOf mixedEntries) "/pkg".toList [] mixedEntries rfl

/-! ## Lemmas about the bootstrap sequence -/

theorem failed_is_last {good pre post : List Call} {x c : Call}
    (hgood : ∀ a ∈ good, a.failed = false) (h : good ++ [x] = pre ++ c :: post)
    (hc : c.failed = true) : post = [] := by
  rcases List.eq_nil_or_concat post with hp | ⟨post', y, hp⟩
  · exact hp
  · exfalso
    rw [hp, List.concat_eq_append, ← List.cons_append, ← List.append_assoc] at h
    have hg := (List.append_inj' h rfl).1
    have hmem : c ∈ good := by rw [hg]; simp
    rw [hgood c hmem] at hc
    exact Bool.noConfusion hc

theorem runSum_shape (rt : Runtime) (h d : Nat) (calls : List Call)
    (hcalls : ∀ c ∈ calls, c.failed = false) : FailFast (runSum rt h d calls) := by
  unfold runSum
  dsimp only
  split
  · next hret =>
    right
    exact ⟨calls, _, rfl, hcalls, by simpa [Call.failed] using hret, rfl⟩
  · next hret =>
    left
    refine ⟨?_, rfl⟩
    intro c hc
    simp only [List.mem_append, List.mem_singleton] at hc
    rcases hc with (hc | rfl) | rfl
    · exact hcalls c hc
    · simpa [Call.failed] using hret
    · rfl

theorem runPlus_shape (rt : Runtime) (h d : Nat) (calls : List Call)
    (hcalls : ∀ c ∈ calls, c.failed = false) : FailFast (runPlus rt h d calls) := by
  unfold runPlus
  dsimp only
  split
  · next hret =>
    right
    exact ⟨calls, _, rfl, hcalls, by simpa [Call.failed] using hret, rfl⟩
  · next hret =>
    apply runSum_shape
    intro c hc
    simp only [List.mem_append, List.mem_singleton] at hc
    rcases hc with (hc | rfl) | rfl
    · exact hcalls c hc
    · simpa [Call.failed] using hret
    · rfl

theorem runBootstrap_shape (rt : Runtime) (h d : Nat) (calls : List Call)
    (hcalls : ∀ c ∈ calls, c.failed = false) : FailFast (runBootstrap rt h d calls) := by
  unfold runBootstrap
  dsimp only
  split
  · next hret =>
    right
    exact ⟨calls, _, rfl, hcalls, by simpa [Call.failed] using hret, rfl⟩
  · next hret =>
    apply runPlus_shape
    intro c hc
    simp only [List.mem_append, List.mem_singleton, List.mem_cons, List.not_mem_nil,
      or_false] at hc
    rcases hc with (hc | rfl) | rfl | rfl | rfl
    · exact hcalls c hc
    · simpa [Call.failed] using hret
    · rfl
    · rfl
    · rfl

theorem run_shape (rt : Runtime) (fs : FileSystem) (app_path pkg_path : Str) :
    FailFast (run rt fs app_path pkg_path) := by
  unfold run
  dsimp only
  split
  · right
    exact ⟨[], _, rfl, by simp, rfl, rfl⟩
  · split
    · right
      exact ⟨_, _, rfl, by simp [Call.failed], rfl, rfl⟩
    · split
      · next hret =>
        right
        exact ⟨_, _, rfl, by simp [Call.failed], by simpa [Call.failed] using hret, rfl⟩
      · next hret =>
        split
        · right
          exact ⟨_, _, rfl, by simpa [Call.failed] using hret, rfl, rfl⟩
        · apply runBootstrap_shape
          simpa [Call.failed] using hret

theorem runSum_calls (rt : Runtime) (h d : Nat) (calls : List Call) :
    ∃ post, (runSum rt h d calls).calls = calls ++ post ∧
      ∀ c ∈ post, c.usesMsg = false ∧ c.isInitialize = false ∧ c.bindsBootstrap = false := by
  unfold runSum
  dsimp only
  split
  · exact ⟨_, rfl, by simp +decide [Call.usesMsg, Call.isInitialize, Call.bindsBootstrap]⟩
  · refine ⟨_, List.append_assoc _ _ _, ?_⟩
    simp +decide [Call.usesMsg, Call.isInitialize, Call.bindsBootstrap]

theorem runPlus_calls (rt : Runtime) (h d : Nat) (calls : List Call) :
    ∃ post, (runPlus rt h d calls).calls = calls ++ post ∧
      ∀ c ∈ post, c.usesMsg = false ∧ c.isInitialize = false ∧ c.bindsBootstrap = false := by
  unfold runPlus
  dsimp only
  split
  · exact ⟨_, rfl, by simp +decide [Call.usesMsg, Call.isInitialize, Call.bindsBootstrap]⟩
  · obtain ⟨post, hpost, hclean⟩ := runSum_calls rt h d
      (calls ++ [Call.coreclr_create_delegate h d "manlib".toList "ManLib".toList
        "Plus".toList
        (rt.coreclr_create_delegate h d "manlib".toList "ManLib".toList "Plus".toList).1]
        ++ [Call.call_plus
          (rt.coreclr_create_delegate h d "manlib".toList "ManLib".toList "Plus".toList).2
          1 2])
    refine ⟨_, hpost.trans ((List.append_assoc _ _ _).trans (List.append_assoc _ _ _)), ?_⟩
    · intro c hc
      simp only [List.mem_append, List.mem_singleton] at hc
      rcases hc with rfl | rfl | hc
      · simp +decide [Call.usesMsg, Call.isInitialize, Call.bindsBootstrap]
      · simp +decide [Call.usesMsg, Call.isInitialize, Call.bindsBootstrap]
      · exact hclean c hc

/-- The calls of the delegate blocks: either the `Bootstrap` bind returns a negative code
and is the last call, or it returns a non-negative code and is followed at once by the call
of the pointer it returned, the print and the release of the string that call returned,
and then by calls that neither touch a returned string nor bind `Bootstrap` again. -/
theorem runBootstrap_calls (rt : Runtime) (h d : Nat) (calls : List Call) (ret : Int)
    (dele msg : Nat)
    (hret : ret = (rt.coreclr_create_delegate h d "manlib".toList "ManLib".toList
      "Bootstrap".toList).1)
    (hdele : dele = (rt.coreclr_create_delegate h d "manlib".toList "ManLib".toList
      "Bootstrap".toList).2)
    (hmsg : msg = rt.bootstrap dele) :
    (ret < 0 ∧ (runBootstrap rt h d calls).calls = calls ++
        [Call.coreclr_create_delegate h d "manlib".toList "ManLib".toList "Bootstrap".toList
          ret]) ∨
      ∃ post, 0 ≤ ret ∧ (runBootstrap rt h d calls).calls = calls ++
          [Call.coreclr_create_delegate h d "manlib".toList "ManLib".toList "Bootstrap".toList
            ret, Call.call_bootstrap dele msg, Call.print_msg msg, Call.free msg] ++ post ∧
        ∀ c ∈ post, c.usesMsg = false ∧ c.isInitialize = false ∧ c.bindsBootstrap = false := by
  subst hret hdele hmsg
  unfold runBootstrap
  dsimp only
  split
  · next hneg => left; exact ⟨hneg, rfl⟩
  · next hneg =>
    right
    obtain ⟨post, hpost, hclean⟩ := runPlus_calls rt h d
      (calls ++ [Call.coreclr_create_delegate h d "manlib".toList "ManLib".toList
        "Bootstrap".toList
        (rt.coreclr_create_delegate h d "manlib".toList "ManLib".toList
          "Bootstrap".toList).1] ++
        [Call.call_bootstrap
          (rt.coreclr_create_delegate h d "manlib".toList "ManLib".toList
            "Bootstrap".toList).2
          (rt.bootstrap (rt.coreclr_create_delegate h d "manlib".toList "ManLib".toList
            "Bootstrap".toList).2),
         Call.print_msg (rt.bootstrap (rt.coreclr_create_delegate h d "manlib".toList
            "ManLib".toList "Bootstrap".toList).2),
         Call.free (rt.bootstrap (rt.coreclr_create_delegate h d "manlib".toList
            "ManLib".toList "Bootstrap".toList).2)])
    refine ⟨post, Int.not_lt.1 hneg, ?_, hclean⟩
    rw [hpost, List.append_assoc calls]
    rfl

theorem runBootstrap_initialize_mem (rt : Runtime) (h d : Nat) (calls : List Call) (c : Call)
    (hc : c ∈ (runBootstrap rt h d calls).calls) (hinit : c.isInitialize = true) :
    c ∈ calls := by
  rcases runBootstrap_calls rt h d calls _ _ _ rfl rfl rfl with
    ⟨_, htrace⟩ | ⟨post, _, htrace, hclean⟩
  · rw [htrace] at hc
    simp only [List.mem_append, List.mem_singleton] at hc
    rcases hc with hc | rfl
    · exact hc
    · exact Bool.noConfusion hinit
  · rw [htrace] at hc
    simp only [List.mem_append, List.mem_singleton, List.mem_cons, List.not_mem_nil,
      or_false] at hc
    rcases hc with (hc | rfl | rfl | rfl | rfl) | hc
    · exact hc
    · exact Bool.noConfusion hinit
    · exact Bool.noConfusion hinit
    · exact Bool.noConfusion hinit
    · exact Bool.noConfusion hinit
    · rw [(hclean c hc).2.1] at hinit
      exact Bool.noConfusion hinit

/-- The uses of the `Bootstrap` string over a whole run.  Either no call touches a returned
string and no `Bootstrap` bind succeeded; or the trace holds, next to each other and in this
order, the bind of `Bootstrap` with the handle and domain id `coreclr_initialize` returned,
the call of the pointer the bind returned, the print and the release of the string that call
returned, and no other call touches a returned string or binds `Bootstrap`. -/
theorem run_msg_trace (rt : Runtime) (fs : FileSystem) (app_path pkg_path : Str)
    (h d : Nat) (ret : Int) (dele msg : Nat)
    (hh : h = (rt.coreclr_initialize app_path "host".toList 2 property_keys
      [app_path, AddFilesFromDirectoryToTpaList fs pkg_path []]).2.1)
    (hd : d = (rt.coreclr_initialize app_path "host".toList 2 property_keys
      [app_path, AddFilesFromDirectoryToTpaList fs pkg_path []]).2.2)
    (hret : ret = (rt.coreclr_create_delegate h d "manlib".toList "ManLib".toList
      "Bootstrap".toList).1)
    (hdele : dele = (rt.coreclr_create_delegate h d "manlib".toList "ManLib".toList
      "Bootstrap".toList).2)
    (hmsg : msg = rt.bootstrap dele) :
    (∀ c ∈ (run rt fs app_path pkg_path).calls, c.usesMsg = false ∧
        ∀ h1 d1 a t r, c = Call.coreclr_create_delegate h1 d1 a t "Bootstrap".toList r →
          r < 0) ∨
      ∃ pre post, 0 ≤ ret ∧ (run rt fs app_path pkg_path).calls = pre ++
          [Call.coreclr_create_delegate h d "manlib".toList "ManLib".toList "Bootstrap".toList
            ret, Call.call_bootstrap dele msg, Call.print_msg msg, Call.free msg] ++ post ∧
        ∀ c ∈ pre ++ post, c.usesMsg = false ∧ c.bindsBootstrap = false := by
  subst hh hd
  unfold run
  dsimp only
  simp only [List.length_cons, List.length_nil, Nat.zero_add, Nat.reduceAdd]
  split
  · left; simp [Call.usesMsg]
  · split
    · left; simp [Call.usesMsg]
    · split
      · left; simp [Call.usesMsg]
      · split
        · left; simp [Call.usesMsg]
        · rcases runBootstrap_calls rt _ _ _ ret dele msg hret hdele hmsg with
            ⟨hneg, htrace⟩ | ⟨post, hge, htrace, hclean⟩
          · left
            rw [htrace]
            simp only [List.forall_mem_append, List.forall_mem_singleton]
            refine ⟨⟨⟨⟨?_, ?_⟩, ?_⟩, ?_⟩, rfl, ?_⟩
            · simp [Call.usesMsg]
            · simp [Call.usesMsg]
            · simp [Call.usesMsg]
            · simp [Call.usesMsg]
            · intro h1 d1 a t r heq
              injection heq with _ _ _ _ _ hr
              rw [← hr]; exact hneg
          · right
            refine ⟨_, post, hge, htrace, ?_⟩
            simp only [List.forall_mem_append, List.forall_mem_singleton]
            exact ⟨⟨⟨⟨⟨rfl, rfl⟩, ⟨rfl, rfl⟩⟩, ⟨rfl, rfl⟩⟩, ⟨rfl, rfl⟩⟩,
              fun c hc => ⟨(hclean c hc).1, (hclean c hc).2.2⟩⟩

/-- Every call of `coreclr_initialize` in a run is the one of lines 157-165. -/
theorem run_initialize_mem (rt : Runtime) (fs : FileSystem) (app_path pkg_path : Str)
    (c : Call) (hc : c ∈ (run rt fs app_path pkg_path).calls)
    (hinit : c.isInitialize = true) :
    c = Call.coreclr_initialize app_path "host".toList 2 property_keys
      [app_path, AddFilesFromDirectoryToTpaList fs pkg_path []]
      (rt.coreclr_initialize app_path "host".toList 2 property_keys
        [app_path, AddFilesFromDirectoryToTpaList fs pkg_path []]).1 := by
  unfold run at hc
  dsimp only at hc
  split at hc
  · simp only [List.mem_singleton] at hc
    subst hc
    exact Bool.noConfusion hinit
  · split at hc
    · simp only [List.mem_append, List.mem_singleton] at hc
      rcases hc with rfl | rfl <;> exact Bool.noConfusion hinit
    · split at hc
      · simp only [List.mem_append, List.mem_singleton] at hc
        rcases hc with (rfl | rfl) | rfl
        · exact Bool.noConfusion hinit
        · exact Bool.noConfusion hinit
        · rfl
      · split at hc
        · simp only [List.mem_append, List.mem_singleton] at hc
          rcases hc with ((rfl | rfl) | rfl) | rfl
          · exact Bool.noConfusion hinit
          · exact Bool.noConfusion hinit
          · rfl
          · exact Bool.noConfusion hinit
        · have hpre := runBootstrap_initialize_mem rt _ _ _ _ hc hinit
          simp only [List.mem_append, List.mem_singleton] at hpre
          rcases hpre with ((rfl | rfl) | rfl) | rfl
          · exact Bool.noConfusion hinit
          · exact Bool.noConfusion hinit
          · rfl
          · exact Bool.noConfusion hinit

/-! ## Claims about the bootstrap sequence -/

/-- C4: when `opendir` returns a null pointer for `directory`, the function returns with
`tpaList` as it was passed in, and it has no error result; started from the empty list it
returns the empty list, and so every call of `coreclr_initialize` by a `run` on such a
package directory passes the empty list as the value of `TRUSTED_PLATFORM_ASSEMBLIES`. -/
theorem tpa_missing_directory (fs : FileSystem) (directory tpaList : Str)
    (hopen : fs.opendir directory = none) :
    AddFilesFromDirectoryToTpaList fs directory tpaList = tpaList ∧
      AddFilesFromDirectoryToTpaList fs directory [] = [] ∧
      ∀ (rt : Runtime) (app_path exePath name : Str) (n : Nat) (keys values : List Str)
        (ret : Int),
        Call.coreclr_initialize exePath name n keys values ret ∈
          (run rt fs app_path directory).calls → values = [app_path, []] := by
  have hempty : ∀ t, AddFilesFromDirectoryToTpaList fs directory t = t := by
    intro t
    simp [AddFilesFromDirectoryToTpaList, hopen]
  refine ⟨hempty _, hempty _, ?_⟩
  intro rt app_path exePath name n keys values ret hcall
  have key := run_initialize_mem rt fs app_path directory _ hcall rfl
  injection key with _ _ _ _ h5 _
  rw [h5, hempty]

theorem tpa_missing_directory_witness :
    AddFilesFromDirectoryToTpaList fsNone "/missing".toList "/old/x.dll:".toList
        = "/old/x.dll:".toList ∧
      AddFilesFromDirectoryToTpaList fsNone "/missing".toList [] = [] ∧
      ∀ (rt : Runtime) (app_path exePath name : Str) (n : Nat) (keys values : List Str)
        (ret : Int),
        Call.coreclr_initialize exePath name n keys values ret ∈
          (run rt fsNone app_path "/missing".toList).calls → values = [app_path, []] :=
  tpa_missing_directory fsNone "/missing".toList "/old/x.dll:".toList rfl

/-- C5 (counterexample): a runtime whose library opens and exports `coreclr_initialize`
but not `coreclr_create_delegate`, and a run with it in which `coreclr_initialize` is
called. -/
theorem create_symbol_missing_initialize_called :
    (rtOf false 0 []).dlopen ("/pkg".toList ++ "/".toList ++ (rtOf false 0 []).libcoreclr)
        = some 7 ∧
      (rtOf false 0 []).dlsym 7 "coreclr_initialize".toList = some 11 ∧
      (rtOf false 0 []).dlsym 7 "coreclr_create_delegate".toList = none ∧
      Call.coreclr_initialize "/app".toList "host".toList 2 property_keys
          ["/app".toList, []] 0 ∈ (run (rtOf false 0 []) fsNone "/app".toList "/pkg".toList).calls := by
  refine ⟨rfl, rfl, rfl, ?_⟩
  decide

/-- C5 (amended): in every run in which the runtime library opens and exports
`coreclr_initialize` but not `coreclr_create_delegate`, `run` returns `-1` and
`coreclr_initialize` is called once, before `coreclr_create_delegate` is looked up.  When
it returns a negative code the run ends there with the initialization diagnostic; otherwise
`coreclr_create_delegate` is looked up next, reported as the missing symbol, and no further
call is made. -/
theorem create_symbol_resolved_after_initialize (rt : Runtime) (fs : FileSystem)
    (app_path pkg_path : Str) (coreclr coreclr_init : Nat)
    (hopen : rt.dlopen (pkg_path ++ "/".toList ++ rt.libcoreclr) = some coreclr)
    (hinit : rt.dlsym coreclr "coreclr_initialize".toList = some coreclr_init)
    (hcreate : rt.dlsym coreclr "coreclr_create_delegate".toList = none) :
    ∃ ret, ret = (rt.coreclr_initialize app_path "host".toList 2 property_keys
          [app_path, AddFilesFromDirectoryToTpaList fs pkg_path []]).1 ∧
      (run rt fs app_path pkg_path).status = some (-1) ∧
      (ret < 0 →
        (run rt fs app_path pkg_path).calls =
            [Call.dlopen (pkg_path ++ "/".toList ++ rt.libcoreclr) (some coreclr),
             Call.dlsym coreclr "coreclr_initialize".toList (some coreclr_init),
             Call.coreclr_initialize app_path "host".toList 2 property_keys
               [app_path, AddFilesFromDirectoryToTpaList fs pkg_path []] ret] ∧
          (run rt fs app_path pkg_path).cerr = diagInit ret) ∧
      (0 ≤ ret →
        (run rt fs app_path pkg_path).calls =
            [Call.dlopen (pkg_path ++ "/".toList ++ rt.libcoreclr) (some coreclr),
             Call.dlsym coreclr "coreclr_initialize".toList (some coreclr_init),
             Call.coreclr_initialize app_path "host".toList 2 property_keys
               [app_path, AddFilesFromDirectoryToTpaList fs pkg_path []] ret,
             Call.dlsym coreclr "coreclr_create_delegate".toList none] ∧
          (run rt fs app_path pkg_path).cerr =
            diagSymbol "coreclr_create_delegate".toList
              (pkg_path ++ "/".toList ++ rt.libcoreclr)) := by
  refine ⟨_, rfl, ?_⟩
  unfold run
  dsimp only
  rw [hopen]
  dsimp only
  rw [hinit]
  dsimp only
  rw [hcreate]
  simp only [List.length_cons, List.length_nil, Nat.zero_add, Nat.reduceAdd]
  by_cases hret : (rt.coreclr_initialize app_path "host".toList 2 property_keys
      [app_path, AddFilesFromDirectoryToTpaList fs pkg_path []]).1 < 0
  · rw [if_pos hret]
    exact ⟨rfl, fun _ => ⟨rfl, rfl⟩, fun hge => absurd hret (Int.not_lt.2 hge)⟩
  · rw [if_neg hret]
    exact ⟨rfl, fun hlt => absurd hlt hret, fun _ => ⟨rfl, rfl⟩⟩

theorem create_symbol_resolved_after_initialize_witness :
    ∃ ret, ret = ( Runtime.coreclr_initialize (rtOf false 0 []) "/app".toList "host".toList 2
          property_keys
          ["/app".toList, AddFilesFromDirectoryToTpaList fsNone "/pkg".toList []]).1 ∧
      (run (rtOf false 0 []) fsNone "/app".toList "/pkg".toList).status = some (-1) ∧
      (ret < 0 →
        (run (rtOf false 0 []) fsNone "/app".toList "/pkg".toList).calls =
            [Call.dlopen ("/pkg".toList ++ "/".toList ++ (rtOf false 0 []).libcoreclr) (some 7),
             Call.dlsym 7 "coreclr_initialize".toList (some 11),
             Call.coreclr_initialize "/app".toList "host".toList 2 property_keys
               ["/app".toList, AddFilesFromDirectoryToTpaList fsNone "/pkg".toList []] ret] ∧
          (run (rtOf false 0 []) fsNone "/app".toList "/pkg".toList).cerr = diagInit ret) ∧
      (0 ≤ ret →
        (run (rtOf false 0 []) fsNone "/app".toList "/pkg".toList).calls =
            [Call.dlopen ("/pkg".toList ++ "/".toList ++ (rtOf false 0 []).libcoreclr) (some 7),
             Call.dlsym 7 "coreclr_initialize".toList (some 11),
             Call.coreclr_initialize "/app".toList "host".toList 2 property_keys
               ["/app".toList, AddFilesFromDirectoryToTpaList fsNone "/pkg".toList []] ret,
             Call.dlsym 7 "coreclr_create_delegate".toList none] ∧
          (run (rtOf false 0 []) fsNone "/app".toList "/pkg".toList).cerr =
            diagSymbol "coreclr_create_delegate".toList
              ("/pkg".toList ++ "/".toList ++ (rtOf false 0 []).libcoreclr)) :=
  create_symbol_resolved_after_initialize (rtOf false 0 []) fsNone "/app".toList
    "/pkg".toList 7 11 rfl rfl rfl

/-- C6: whenever a call of `run` fails (`dlopen` or `dlsym` returns a null pointer,
`coreclr_initialize` or `coreclr_create_delegate` returns a negative code), that call is
the last call of the run, and `run` returns `-1`: nothing is looked up, initialized, bound,
called or released after the first failure. -/
theorem run_fail_fast (rt : Runtime) (fs : FileSystem) (app_path pkg_path : Str)
    (pre post : List Call) (c : Call)
    (htrace : (run rt fs app_path pkg_path).calls = pre ++ c :: post)
    (hfail : c.failed = true) :
    post = [] ∧ (run rt fs app_path pkg_path).status = some (-1) := by
  rcases run_shape rt fs app_path pkg_path with ⟨hall, _⟩ | ⟨good, x, hcalls, hgood, _, hst⟩
  · have hmem : c ∈ (run rt fs app_path pkg_path).calls := by rw [htrace]; simp
    rw [hall c hmem] at hfail
    exact Bool.noConfusion hfail
  · exact ⟨failed_is_last hgood (hcalls.symm.trans htrace) hfail, hst⟩

theorem run_fail_fast_witness :
    (run (rtOf true (-5) []) fsNone "/app".toList "/pkg".toList).calls =
        [Call.dlopen "/pkg/libcoreclr.so".toList (some 7),
         Call.dlsym 7 "coreclr_initialize".toList (some 11)] ++
        Call.coreclr_initialize "/app".toList "host".toList 2 property_keys
          ["/app".toList, []] (-5) :: [] ∧
      ([] : List Call) = [] ∧
      (run (rtOf true (-5) []) fsNone "/app".toList "/pkg".toList).status = some (-1) :=
  ⟨by decide,
    run_fail_fast (rtOf true (-5) []) fsNone "/app".toList "/pkg".toList
      [Call.dlopen "/pkg/libcoreclr.so".toList (some 7),
       Call.dlsym 7 "coreclr_initialize".toList (some 11)] []
      (Call.coreclr_initialize "/app".toList "host".toList 2 property_keys
        ["/app".toList, []] (-5)) (by decide) (by decide)⟩

/-- C7 (the code on a successful run): when no call of a run fails, control reaches the
closing brace of `run` and no `return` statement is executed, so `run` returns no defined
value, and in particular not `0`. -/
theorem run_success_status (rt : Runtime) (fs : FileSystem) (app_path pkg_path : Str)
    (hok : ∀ c ∈ (run rt fs app_path pkg_path).calls, c.failed = false) :
    (run rt fs app_path pkg_path).status = none ∧
      (run rt fs app_path pkg_path).status ≠ some 0 := by
  rcases run_shape rt fs app_path pkg_path with ⟨_, hst⟩ | ⟨good, x, hcalls, _, hx, _⟩
  · rw [hst]; exact ⟨rfl, fun h => Option.noConfusion h⟩
  · have hmem : x ∈ (run rt fs app_path pkg_path).calls := by rw [hcalls]; simp
    rw [hok x hmem] at hx
    exact Bool.noConfusion hx

theorem run_success_status_witness :
    (run (rtOf true 0 []) (fsOf [reg "A.dll"]) "/app".toList "/pkg".toList).status = none ∧
      (run (rtOf true 0 []) (fsOf [reg "A.dll"]) "/app".toList "/pkg".toList).status
        ≠ some 0 :=
  run_success_status (rtOf true 0 []) (fsOf [reg "A.dll"]) "/app".toList "/pkg".toList
    (by decide)

/-- C8: every call of `coreclr_initialize` made by `run` passes `app_path` as `exePath`,
the domain name `"host"`, the property count `2`, which is the length of the key array and
of the value array, the keys `APP_PATHS` and `TRUSTED_PLATFORM_ASSEMBLIES` in this order,
and the values `app_path` and the list `AddFilesFromDirectoryToTpaList` builds for
`pkg_path` from the empty string, in the matching order. -/
theorem initialize_arguments (rt : Runtime) (fs : FileSystem) (app_path pkg_path : Str)
    (exePath name : Str) (n : Nat) (keys values : List Str) (ret : Int)
    (hcall : Call.coreclr_initialize exePath name n keys values ret ∈
      (run rt fs app_path pkg_path).calls) :
    exePath = app_path ∧ name = "host".toList ∧ n = 2 ∧ keys.length = n ∧
      values.length = n ∧
      keys = ["APP_PATHS".toList, "TRUSTED_PLATFORM_ASSEMBLIES".toList] ∧
      values = [app_path, AddFilesFromDirectoryToTpaList fs pkg_path []] := by
  have key := run_initialize_mem rt fs app_path pkg_path _ hcall rfl
  injection key with h1 h2 h3 h4 h5 _
  subst h1 h2 h3 h4 h5
  exact ⟨rfl, rfl, rfl, rfl, rfl, rfl, rfl⟩

theorem initialize_arguments_witness :
    "/app".toList = "/app".toList ∧ "host".toList = "host".toList ∧ 2 = 2 ∧
      property_keys.length = 2 ∧
      ["/app".toList, "/pkg/A.dll:".toList].length = 2 ∧
      property_keys = ["APP_PATHS".toList, "TRUSTED_PLATFORM_ASSEMBLIES".toList] ∧
      ["/app".toList, "/pkg/A.dll:".toList] =
        ["/app".toList,
          AddFilesFromDirectoryToTpaList (fsOf [reg "A.dll"]) "/pkg".toList []] :=
  initialize_arguments (rtOf true 0 []) (fsOf [reg "A.dll"]) "/app".toList "/pkg".toList
    "/app".toList "host".toList 2 property_keys ["/app".toList, "/pkg/A.dll:".toList] 0
    (by decide)

/-- C9: when the trace of a run holds a bind of `Bootstrap` with a non-negative code, that
bind was made with the handle and domain id `coreclr_initialize` returned, and it is
followed at once, in this order, by one call of the pointer the bind returned, the print of
the string that call returned and the release of that very string through `free`; no other
call of the run binds `Bootstrap`, calls the delegate, prints or releases a string.  And
every pointer a run passes to `free` is the string returned by such a call: the trace then
holds the successful bind, the call of the bound pointer, the print and the release, next
to each other, so nothing is released on a run that did not call the delegate. -/
theorem bootstrap_msg_freed_once (rt : Runtime) (fs : FileSystem) (app_path pkg_path : Str) :
    (∀ h d a t ret,
        Call.coreclr_create_delegate h d a t "Bootstrap".toList ret ∈
          (run rt fs app_path pkg_path).calls → 0 ≤ ret →
        ∃ pre post dele msg,
          h = (rt.coreclr_initialize app_path "host".toList 2 property_keys
            [app_path, AddFilesFromDirectoryToTpaList fs pkg_path []]).2.1 ∧
          d = (rt.coreclr_initialize app_path "host".toList 2 property_keys
            [app_path, AddFilesFromDirectoryToTpaList fs pkg_path []]).2.2 ∧
          a = "manlib".toList ∧ t = "ManLib".toList ∧
          ret = (rt.coreclr_create_delegate h d a t "Bootstrap".toList).1 ∧
          dele = (rt.coreclr_create_delegate h d a t "Bootstrap".toList).2 ∧
          msg = rt.bootstrap dele ∧
          (run rt fs app_path pkg_path).calls =
            pre ++ [Call.coreclr_create_delegate h d a t "Bootstrap".toList ret,
              Call.call_bootstrap dele msg, Call.print_msg msg, Call.free msg] ++ post ∧
          ∀ c ∈ pre ++ post, c.usesMsg = false ∧ c.bindsBootstrap = false) ∧
      ∀ ptr, Call.free ptr ∈ (run rt fs app_path pkg_path).calls →
        ∃ pre post h d ret dele, 0 ≤ ret ∧
          ret = (rt.coreclr_create_delegate h d "manlib".toList "ManLib".toList
            "Bootstrap".toList).1 ∧
          dele = (rt.coreclr_create_delegate h d "manlib".toList "ManLib".toList
            "Bootstrap".toList).2 ∧
          ptr = rt.bootstrap dele ∧
          (run rt fs app_path pkg_path).calls =
            pre ++ [Call.coreclr_create_delegate h d "manlib".toList "ManLib".toList
                "Bootstrap".toList ret,
              Call.call_bootstrap dele ptr, Call.print_msg ptr, Call.free ptr] ++ post ∧
          ∀ c ∈ pre ++ post, c.usesMsg = false ∧ c.bindsBootstrap = false := by
  rcases run_msg_trace rt fs app_path pkg_path _ _ _ _ _ rfl rfl rfl rfl rfl with
    hnone | ⟨pre, post, hge, htrace, hclean⟩
  · constructor
    · intro h d a t ret hmem hret
      exact absurd ((hnone _ hmem).2 h d a t ret rfl) (Int.not_lt.2 hret)
    · intro ptr hmem
      exact Bool.noConfusion (hnone _ hmem).1
  · have hbind : ∀ h d a t ret, (Call.coreclr_create_delegate h d a t "Bootstrap".toList
        ret).bindsBootstrap = true := by
      intro h d a t ret
      simp [Call.bindsBootstrap]
    constructor
    · intro h d a t ret hmem _
      rw [htrace] at hmem
      simp only [List.mem_append, List.mem_cons, List.mem_singleton, List.not_mem_nil,
        or_false] at hmem
      rcases hmem with (hmem | hmem | hmem | hmem | hmem) | hmem
      · have := (hclean _ (List.mem_append.2 (Or.inl hmem))).2
        rw [hbind] at this
        exact Bool.noConfusion this
      · injection hmem with h1 h2 h3 h4 _ h6
        subst h1 h2 h3 h4 h6
        exact ⟨pre, post, _, _, rfl, rfl, rfl, rfl, rfl, rfl, rfl, htrace, hclean⟩
      · exact Call.noConfusion hmem
      · exact Call.noConfusion hmem
      · exact Call.noConfusion hmem
      · have := (hclean _ (List.mem_append.2 (Or.inr hmem))).2
        rw [hbind] at this
        exact Bool.noConfusion this
    · intro ptr hmem
      rw [htrace] at hmem
      simp only [List.mem_append, List.mem_cons, List.mem_singleton, List.not_mem_nil,
        or_false] at hmem
      rcases hmem with (hmem | hmem | hmem | hmem | hmem) | hmem
      · exact Bool.noConfusion (hclean _ (List.mem_append.2 (Or.inl hmem))).1
      · exact Call.noConfusion hmem
      · exact Call.noConfusion hmem
      · exact Call.noConfusion hmem
      · injection hmem with hp
        subst hp
        exact ⟨pre, post, _, _, _, _, hge, rfl, rfl, rfl, htrace, hclean⟩
      · exact Bool.noConfusion (hclean _ (List.mem_append.2 (Or.inr hmem))).1

theorem bootstrap_msg_freed_once_witness :
    (∃ pre post dele msg,
        21 = ( Runtime.coreclr_initialize (rtOf true 0 "Plus".toList) "/app".toList
          "host".toList 2 property_keys
          ["/app".toList, AddFilesFromDirectoryToTpaList fsNone "/pkg".toList []]).2.1 ∧
        1 = ( Runtime.coreclr_initialize (rtOf true 0 "Plus".toList) "/app".toList
          "host".toList 2 property_keys
          ["/app".toList, AddFilesFromDirectoryToTpaList fsNone "/pkg".toList []]).2.2 ∧
        "manlib".toList = "manlib".toList ∧ "ManLib".toList = "ManLib".toList ∧
        (0 : Int) = ((rtOf true 0 "Plus".toList).coreclr_create_delegate 21 1 "manlib".toList
          "ManLib".toList "Bootstrap".toList).1 ∧
        dele = ((rtOf true 0 "Plus".toList).coreclr_create_delegate 21 1 "manlib".toList
          "ManLib".toList "Bootstrap".toList).2 ∧
        msg = (rtOf true 0 "Plus".toList).bootstrap dele ∧
        (run (rtOf true 0 "Plus".toList) fsNone "/app".toList "/pkg".toList).calls =
          pre ++ [Call.coreclr_create_delegate 21 1 "manlib".toList "ManLib".toList
              "Bootstrap".toList 0,
            Call.call_bootstrap dele msg, Call.print_msg msg, Call.free msg] ++ post ∧
        ∀ c ∈ pre ++ post, c.usesMsg = false ∧ c.bindsBootstrap = false) ∧
      ∃ pre post h d ret dele, 0 ≤ ret ∧
        ret = ((rtOf true 0 "Plus".toList).coreclr_create_delegate h d "manlib".toList
          "ManLib".toList "Bootstrap".toList).1 ∧
        dele = ((rtOf true 0 "Plus".toList).coreclr_create_delegate h d "manlib".toList
          "ManLib".toList "Bootstrap".toList).2 ∧
        99 = (rtOf true 0 "Plus".toList).bootstrap dele ∧
        (run (rtOf true 0 "Plus".toList) fsNone "/app".toList "/pkg".toList).calls =
          pre ++ [Call.coreclr_create_delegate h d "manlib".toList "ManLib".toList
              "Bootstrap".toList ret,
            Call.call_bootstrap dele 99, Call.print_msg 99, Call.free 99] ++ post ∧
        ∀ c ∈ pre ++ post, c.usesMsg = false ∧ c.bindsBootstrap = false :=
  ⟨(bootstrap_msg_freed_once (rtOf true 0 "Plus".toList) fsNone "/app".toList
      "/pkg".toList).1 21 1 "manlib".toList "ManLib".toList 0 (by decide) (by decide),
    (bootstrap_msg_freed_once (rtOf true 0 "Plus".toList) fsNone "/app".toList
      "/pkg".toList).2 99 (by decide)⟩

end CoreClrHost
